import Mathlib

/-
Verification of the ETL repository's transform-and-load engine.

The definitions below are shallow embeddings of the Python functions in
src/ETL_PIPELINE/scripts/{load,transform,validate}.py,
src/ETL_URBAN/scripts/{load,transform,etl_analysis}.py and
src/ETL_LOGISTIC/scripts/transform.py.  Numeric columns are modelled as
Rat (float NaN / pandas null is modelled as Option.none), tables as
lists of rows, and the remote store's response to an insert attempt as
an explicit oracle function.
-/

namespace ETL

/-- Embeds chunk_data from ETL_PIPELINE/scripts/load.py: for i in
range(0, len(data), size): yield data[i:i+size].  Fuel-based structural
recursion; the fuel data.length is enough whenever 1 <= size, and the
Python generator is only ever iterated with a positive size (range with
step 0 raises). -/
def chunksAux {α : Type} (size : Nat) : Nat → List α → List (List α)
  | 0, _ => []
  | _ + 1, [] => []
  | fuel + 1, x :: xs => (x :: xs).take size :: chunksAux size fuel ((x :: xs).drop size)

/-- chunk_data(data, size): the list of contiguous slices of data of
length size (last one possibly shorter). -/
def chunk_data {α : Type} (data : List α) (size : Nat) : List (List α) :=
  chunksAux size data.length data

/-- Embeds the bounded retry loops of both loaders: the while-loop of
insert_batch in ETL_URBAN/scripts/load.py and the for-attempt-in-range(3)
loop of load_data in ETL_PIPELINE/scripts/load.py.  outcome k tells
whether the k-th insert call (0-based) is acknowledged; attempts is the
number of failed calls so far and the second argument is the number of
loop iterations still allowed.  Returns (success, number of insert calls
made). -/
def attemptLoop (outcome : Nat → Bool) : Nat → Nat → Bool × Nat
  | attempts, 0 => (false, attempts)
  | attempts, rem + 1 =>
      if outcome attempts then (true, attempts + 1)
      else attemptLoop outcome (attempts + 1) rem

/-- Embeds insert_batch from ETL_URBAN/scripts/load.py: while
attempts <= RETRY_LIMIT, try the insert; a failure increments attempts
and gives up (returns False) once attempts > RETRY_LIMIT.  The loop body
therefore runs at most retryLimit + 1 times. -/
def insert_batch (outcome : Nat → Bool) (retryLimit : Nat) : Bool × Nat :=
  attemptLoop outcome 0 (retryLimit + 1)

/-- Embeds the module-level batch loop of ETL_URBAN/scripts/load.py:
for each batch, success_count += len(batch) if insert_batch(batch) else
fail_count += len(batch).  The oracle gives the store's answer to the
k-th insert call for a given batch value. -/
def loadBatchesGo {α : Type} (oracle : List α → Nat → Bool) (retryLimit : Nat) :
    Nat → Nat → List (List α) → Nat × Nat
  | sc, fc, [] => (sc, fc)
  | sc, fc, b :: rest =>
      if (insert_batch (oracle b) retryLimit).1 then
        loadBatchesGo oracle retryLimit (sc + b.length) fc rest
      else
        loadBatchesGo oracle retryLimit sc (fc + b.length) rest

/-- The (success_count, fail_count) summary of the ETL_URBAN batch loop,
started from zero counters. -/
def loadBatches {α : Type} (oracle : List α → Nat → Bool) (retryLimit : Nat)
    (batches : List (List α)) : Nat × Nat :=
  loadBatchesGo oracle retryLimit 0 0 batches

/-- A row of the telco_churn target table, as far as the load and the
delete filter consult it: its contract_type_code value. -/
structure TelcoRow where
  code : Int
deriving DecidableEq, Repr

/-- Embeds supabase.table("telco_churn").delete().neq("contract_type_code", -1)
from ETL_PIPELINE/scripts/load.py line 47: every row whose code is not -1
is deleted, i.e. only rows with code = -1 survive. -/
def clearTable (t : List TelcoRow) : List TelcoRow :=
  t.filter (fun r => r.code = -1)

/-- Embeds the batch loop of load_data in ETL_PIPELINE/scripts/load.py:
for each batch try up to 3 attempts; on success the batch is inserted
into the table and success_count grows by its length, otherwise the
loop just moves on (no insert, no credit). -/
def loadDataGo {α : Type} (oracle : List α → Nat → Bool) :
    List α → Nat → List (List α) → List α × Nat
  | t, sc, [] => (t, sc)
  | t, sc, b :: rest =>
      if (attemptLoop (oracle b) 0 3).1 then
        loadDataGo oracle (t ++ b) (sc + b.length) rest
      else
        loadDataGo oracle t sc rest

/-- Embeds load_data from ETL_PIPELINE/scripts/load.py: clear the target
table (delete where contract_type_code != -1), then insert the staged
records in chunks of 200 with up to 3 attempts per batch.  Returns the
final table state and the success count. -/
def load_data (oracle : List TelcoRow → Nat → Bool) (records : List TelcoRow)
    (t : List TelcoRow) : List TelcoRow × Nat :=
  loadDataGo oracle (clearTable t) 0 (chunk_data records 200)

/-- Embeds classify_delay from ETL_LOGISTIC/scripts/transform.py. -/
def classify_delay (x : ℚ) : String :=
  if x ≤ 0 then "On-Time"
  else if x ≤ 60 then "Slight Delay"
  else if x ≤ 180 then "Major Delay"
  else "Critical Delay"

/-- Embeds agent_score from ETL_LOGISTIC/scripts/transform.py. -/
def agent_score (x : ℚ) : ℚ :=
  if x ≤ 0 then 5
  else if x ≤ 30 then 4
  else if x ≤ 60 then 3
  else if x ≤ 180 then 2
  else 1

/-- Embeds compute_aqi from ETL_URBAN/scripts/transform.py: an explicit
pd.isna check maps a null pm2_5 to None before the threshold chain. -/
def compute_aqi (pm25 : Option ℚ) : Option String :=
  match pm25 with
  | none => none
  | some v =>
      if v ≤ 50 then some "Good"
      else if v ≤ 100 then some "Moderate"
      else if v ≤ 200 then some "Unhealthy"
      else if v ≤ 300 then some "Very Unhealthy"
      else some "Hazardous"

/-- Embeds compute_risk from ETL_URBAN/scripts/transform.py.  There is
no isna check: a NaN severity (modelled as none) makes both float
comparisons sev > 400 and sev > 200 evaluate to False, so the function
falls through to "Low Risk". -/
def compute_risk (sev : Option ℚ) : Option String :=
  match sev with
  | none => some "Low Risk"
  | some s =>
      if 400 < s then some "High Risk"
      else if 200 < s then some "Moderate Risk"
      else some "Low Risk"

/-- Embeds risk_level from ETL_LOGISTIC/scripts/transform.py.  Like
compute_risk it has no isna check, so a NaN traffic_impact_score
(modelled as none) makes x > 15 and x > 7 False and the result is
"Low Risk". -/
def risk_level (x : Option ℚ) : Option String :=
  match x with
  | none => some "Low Risk"
  | some v =>
      if 15 < v then some "High Risk"
      else if 7 < v then some "Moderate Risk"
      else some "Low Risk"

/-- A row of the traffic side table after the column-existence defaults
of ETL_LOGISTIC/scripts/transform.py lines 25-34 (those defaults run
only when a whole column is absent from the frame; each surviving row
carries concrete values). -/
structure TrafficRow where
  source_city : String
  destination_city : String
  congestion_score : ℚ
  avg_route_speed : ℚ
deriving DecidableEq, Repr

/-- Embeds the key lookup of the left merge in
ETL_LOGISTIC/scripts/transform.py lines 81-85 (on=["source_city",
"destination_city"], how="left"): the side-table row matching the
delivery's route, if any. -/
def lookupTraffic (traffic : List TrafficRow) (src dst : String) : Option TrafficRow :=
  traffic.find? (fun r => r.source_city == src && r.destination_city == dst)

/-- The congestion_score column of the merged frame for a delivery with
the given route: null (NaN) when the left merge found no side-table row. -/
def mergedCongestion (traffic : List TrafficRow) (src dst : String) : Option ℚ :=
  (lookupTraffic traffic src dst).map (fun r => r.congestion_score)

/-- The avg_route_speed column of the merged frame for a delivery with
the given route: null (NaN) when the left merge found no side-table row. -/
def mergedSpeed (traffic : List TrafficRow) (src dst : String) : Option ℚ :=
  (lookupTraffic traffic src dst).map (fun r => r.avg_route_speed)

/-- Embeds merged_df["traffic_impact_score"] = congestion_score *
(1 / avg_route_speed) * 10 from ETL_LOGISTIC/scripts/transform.py
line 88.  NaN operands propagate to a NaN result (none); the division
has no zero guard in the source (numpy would yield inf on a zero speed;
Rat division by zero yields 0 here). -/
def traffic_impact_score (cs avs : Option ℚ) : Option ℚ :=
  match cs, avs with
  | some c, some v => some (c * (1 / v) * 10)
  | _, _ => none

/-- A raw delivery row as it stands after the three pd.to_datetime
coercions of ETL_LOGISTIC/scripts/transform.py lines 37-39: each
timestamp is either a parsed time (in epoch seconds, as a rational) or
NaT (none) when missing or unparseable. -/
structure RawDelivery where
  dispatch_time : Option ℚ
  expected_delivery_time : Option ℚ
  actual_delivery_time : Option ℚ
deriving DecidableEq, Repr

/-- Pandas comparison of two possibly-NaT timestamps: any comparison
involving NaT is False, so the row mask actual >= expected keeps a row
only when both are present and ordered. -/
def geOpt (a e : Option ℚ) : Bool :=
  match a, e with
  | some x, some y => y ≤ x
  | _, _ => false

/-- Embeds the cleaning of ETL_LOGISTIC/scripts/transform.py lines
42-43: dropna on the three time columns, then the boolean mask
actual_delivery_time >= expected_delivery_time.  Rows are dropped,
never modified. -/
def cleanDeliveries (l : List RawDelivery) : List RawDelivery :=
  (l.filter (fun r =>
      r.dispatch_time.isSome && r.expected_delivery_time.isSome &&
        r.actual_delivery_time.isSome)).filter
    (fun r => geOpt r.actual_delivery_time r.expected_delivery_time)

/-- Embeds delay_minutes = (actual_delivery_time - expected_delivery_time)
.dt.total_seconds() / 60 from ETL_LOGISTIC/scripts/transform.py line 50
(times in epoch seconds). -/
def delayMinutes (r : RawDelivery) : Option ℚ :=
  match r.actual_delivery_time, r.expected_delivery_time with
  | some a, some e => some ((a - e) / 60)
  | _, _ => none

/-- The row-level precondition the cleaning enforces: all three parsed
timestamps present and actual not before expected.  cleanDeliveries
keeps exactly the rows satisfying it. -/
def deliveryValid (r : RawDelivery) : Bool :=
  r.dispatch_time.isSome && r.expected_delivery_time.isSome &&
    r.actual_delivery_time.isSome &&
    geOpt r.actual_delivery_time r.expected_delivery_time

/-- Embeds merged_df["delivery_efficiency_index"] = (package_weight /
(delay_minutes + 1)) * agent_score from
ETL_LOGISTIC/scripts/transform.py line 99. -/
def delivery_efficiency_index (weight dm score : ℚ) : ℚ :=
  weight / (dm + 1) * score

/-- The maximum of a numeric column, as pandas Series.max computes it
over the listed values (none when the column is empty). -/
def columnMax : List ℚ → Option ℚ
  | [] => none
  | x :: xs =>
      match columnMax xs with
      | none => some x
      | some m => some (max x m)

/-- Embeds the weight normalization of ETL_LOGISTIC/scripts/transform.py
lines 46-47: if deliveries_df["package_weight"].max() > 1000 then every
weight is divided by 1000, otherwise the column is untouched. -/
def normalizeWeights (ws : List ℚ) : List ℚ :=
  match columnMax ws with
  | some m => if 1000 < m then ws.map (fun w => w / 1000) else ws
  | none => ws

/-- Insertion of a value into a sorted list of rationals (ascending). -/
def insertSorted (x : ℚ) : List ℚ → List ℚ
  | [] => [x]
  | y :: ys => if x ≤ y then x :: y :: ys else y :: insertSorted x ys

/-- Ascending insertion sort, used to model the sorting that pandas
quantile performs on the series values. -/
def sortRat (l : List ℚ) : List ℚ :=
  l.foldr insertSorted []

/-- Embeds pandas Series.quantile(q) with the default linear
interpolation, as used in ETL_URBAN/scripts/etl_analysis.py lines 71-72:
on the sorted values v_0..v_(n-1), the quantile sits at position
pos = q * (n - 1); with i = floor(pos) and frac = pos - i the result is
v_i + frac * (v_(i+1) - v_i) (just v_i at the top end).  Empty series
give NaN, modelled as none. -/
def quantileLinear (q : ℚ) (l : List ℚ) : Option ℚ :=
  let s := sortRat l
  match s with
  | [] => none
  | _ :: _ =>
      let pos : ℚ := q * ((s.length : ℚ) - 1)
      let i : Nat := (⌊pos⌋).toNat
      let frac : ℚ := pos - (i : ℚ)
      if i + 1 < s.length then
        some (s.getD i 0 + frac * (s.getD (i + 1) 0 - s.getD i 0))
      else some (s.getD i 0)

/-- low_thresh from ETL_URBAN/scripts/etl_analysis.py line 71: the 0.33
quantile of the non-null severity scores of the current run. -/
def lowThresh (scores : List (Option ℚ)) : Option ℚ :=
  quantileLinear (33 / 100) (scores.filterMap id)

/-- med_thresh from ETL_URBAN/scripts/etl_analysis.py line 72: the 0.66
quantile of the non-null severity scores of the current run. -/
def medThresh (scores : List (Option ℚ)) : Option ℚ :=
  quantileLinear (66 / 100) (scores.filterMap id)

/-- Float comparison x <= threshold where the threshold may be NaN
(none): a comparison with NaN is False. -/
def leOpt (x : ℚ) (t : Option ℚ) : Bool :=
  match t with
  | some c => x ≤ c
  | none => false

/-- Embeds dynamic_risk from ETL_URBAN/scripts/etl_analysis.py lines
74-81: null severity gives None; otherwise inclusive-upper comparison
against the two per-run quantile thresholds. -/
def dynamic_risk (low med : Option ℚ) (sevVal : Option ℚ) : Option String :=
  match sevVal with
  | none => none
  | some x =>
      if leOpt x low then some "Low Risk"
      else if leOpt x med then some "Moderate Risk"
      else some "High Risk"

/-- Embeds df["risk_flag"] = df["severity_score"].apply(dynamic_risk)
from ETL_URBAN/scripts/etl_analysis.py line 83, with both thresholds
computed from the same run's scores before any value is classified. -/
def riskFlags (scores : List (Option ℚ)) : List (Option String) :=
  scores.map (dynamic_risk (lowThresh scores) (medThresh scores))

/-- Embeds contract_map from ETL_PIPELINE/scripts/transform.py lines
53-57 as an Option-valued lookup (pandas Series.map gives NaN off the map). -/
def contract_map (s : String) : Option Int :=
  if s = "month-to-month" then some 0
  else if s = "one year" then some 1
  else if s = "two year" then some 2
  else none

/-- Embeds df["contract_type_code"] = df["Contract"].map(contract_map)
followed by .fillna(0).astype(int) from ETL_PIPELINE/scripts/transform.py
lines 59-60: a missing contract or an unmapped value becomes 0. -/
def contract_type_code (c : Option String) : Int :=
  match c with
  | some s => (contract_map s).getD 0
  | none => 0

/-- The whole contract-encoding column: each Contract value was
lowercased by the categorical standardization of
ETL_PIPELINE/scripts/transform.py line 27 before the map is applied. -/
def transformContractColumn (cs : List (Option String)) : List Int :=
  cs.map (fun c => contract_type_code (c.map (fun s => s.toLower)))

/-- Embeds the contract-code validation of
ETL_PIPELINE/scripts/validate.py lines 79-85: the check passes exactly
when set(column) - {0, 1, 2} is empty. -/
def validContractCodes (codes : List Int) : Bool :=
  codes.all (fun x => x == 0 || x == 1 || x == 2)

theorem chunksAux_nil {α : Type} (size fuel : Nat) :
    chunksAux (α := α) size fuel [] = [] := by
  cases fuel <;> rfl

theorem chunksAux_flatten {α : Type} (size : Nat) (hs : 0 < size) :
    ∀ (fuel : Nat) (l : List α), l.length ≤ fuel →
      (chunksAux size fuel l).flatten = l := by
  intro fuel
  induction fuel with
  | zero =>
      intro l hl
      have hnil : l = [] := List.length_eq_zero.mp (Nat.le_zero.mp hl)
      subst hnil
      rfl
  | succ f ih =>
      intro l hl
      cases l with
      | nil => rfl
      | cons x xs =>
          have hlen : ((x :: xs).drop size).length ≤ f := by
            simp only [List.length_drop, List.length_cons]
            simp only [List.length_cons] at hl
            omega
          simp only [chunksAux, List.flatten_cons, ih _ hlen,
            List.take_append_drop]

theorem chunksAux_mem_length {α : Type} (size : Nat) (hs : 0 < size) :
    ∀ (fuel : Nat) (l b : List α), b ∈ chunksAux size fuel l →
      1 ≤ b.length ∧ b.length ≤ size := by
  intro fuel
  induction fuel with
  | zero =>
      intro l b hb
      simp [chunksAux] at hb
  | succ f ih =>
      intro l b hb
      cases l with
      | nil => simp [chunksAux] at hb
      | cons x xs =>
          simp only [chunksAux, List.mem_cons] at hb
          rcases hb with hb | hb
          · subst hb
            rw [List.length_take]
            constructor
            · exact le_min hs (Nat.succ_le_succ (Nat.zero_le _))
            · exact min_le_left _ _
          · exact ih _ _ hb

theorem chunksAux_dropLast_length {α : Type} (size : Nat) (hs : 0 < size) :
    ∀ (fuel : Nat) (l : List α), l.length ≤ fuel →
      ∀ b ∈ (chunksAux size fuel l).dropLast, b.length = size := by
  intro fuel
  induction fuel with
  | zero =>
      intro l hl b hb
      have hnil : l = [] := List.length_eq_zero.mp (Nat.le_zero.mp hl)
      subst hnil
      simp [chunksAux] at hb
  | succ f ih =>
      intro l hl b hb
      cases l with
      | nil => simp [chunksAux] at hb
      | cons x xs =>
          rcases hrest : chunksAux size f ((x :: xs).drop size) with _ | ⟨c, cs⟩
          · simp [chunksAux, hrest] at hb
          · have hne : (x :: xs).drop size ≠ [] := by
              intro hdrop
              rw [hdrop, chunksAux_nil] at hrest
              exact List.cons_ne_nil c cs hrest.symm
            have hsize : size ≤ xs.length + 1 := by
              by_contra hgt
              push_neg at hgt
              exact hne (List.drop_eq_nil_of_le (by simpa using Nat.le_of_lt hgt))
            have hlen : ((x :: xs).drop size).length ≤ f := by
              simp only [List.length_drop, List.length_cons]
              simp only [List.length_cons] at hl
              omega
            simp only [chunksAux, hrest, List.dropLast_cons₂, List.mem_cons] at hb
            rcases hb with hb | hb
            · subst hb
              rw [List.length_take, List.length_cons]
              exact min_eq_left hsize
            · exact ih _ hlen b (by rw [hrest]; exact hb)

/-- Claim C2: for every ordered record sequence and every positive
batch_size, chunk_data produces slices each of length batch_size except
possibly the last (whose length is between 1 and batch_size), and
concatenating all batches in order reproduces the original sequence. -/
theorem claim_C2_batcher_partition {α : Type} (l : List α) (size : Nat)
    (hs : 0 < size) :
    (chunk_data l size).flatten = l
    ∧ (∀ b ∈ chunk_data l size, 1 ≤ b.length ∧ b.length ≤ size)
    ∧ (∀ b ∈ (chunk_data l size).dropLast, b.length = size) :=
  ⟨chunksAux_flatten size hs l.length l le_rfl,
   fun b hb => chunksAux_mem_length size hs l.length l b hb,
   fun b hb => chunksAux_dropLast_length size hs l.length l le_rfl b hb⟩

/-- Concrete instance of claim C2 at the list [1,2,3,4,5] with
batch_size 2. -/
theorem claim_C2_batcher_partition_witness :
    (chunk_data [1, 2, 3, 4, 5] 2).flatten = [1, 2, 3, 4, 5] :=
  (claim_C2_batcher_partition [1, 2, 3, 4, 5] 2 (by decide)).1

theorem attemptLoop_all_fail (outcome : Nat → Bool)
    (hfail : ∀ k, outcome k = false) :
    ∀ (rem attempts : Nat), attemptLoop outcome attempts rem = (false, attempts + rem) := by
  intro rem
  induction rem with
  | zero => intro attempts; rfl
  | succ r ih =>
      intro attempts
      simp only [attemptLoop, hfail attempts, Bool.false_eq_true, if_false, ih]
      ring_nf

theorem insert_batch_all_fail (outcome : Nat → Bool) (retryLimit : Nat)
    (hfail : ∀ k, outcome k = false) :
    insert_batch outcome retryLimit = (false, retryLimit + 1) := by
  unfold insert_batch
  rw [attemptLoop_all_fail outcome hfail]
  simp

theorem loadBatchesGo_acc {α : Type} (oracle : List α → Nat → Bool)
    (retryLimit : Nat) :
    ∀ (bs : List (List α)) (sc fc : Nat),
      loadBatchesGo oracle retryLimit sc fc bs =
        (sc + (loadBatches oracle retryLimit bs).1,
         fc + (loadBatches oracle retryLimit bs).2) := by
  intro bs
  induction bs with
  | nil => intro sc fc; simp [loadBatchesGo, loadBatches]
  | cons b rest ih =>
      intro sc fc
      simp only [loadBatches, loadBatchesGo]
      cases h : (insert_batch (oracle b) retryLimit).1 with
      | true =>
          simp only [if_true]
          rw [ih (sc + b.length) fc, ih (0 + b.length) 0]
          simp; omega
      | false =>
          simp only [Bool.false_eq_true, if_false]
          rw [ih sc (fc + b.length), ih 0 (0 + b.length)]
          simp; omega

theorem loadBatches_cons {α : Type} (oracle : List α → Nat → Bool)
    (retryLimit : Nat) (b : List α) (rest : List (List α)) :
    loadBatches oracle retryLimit (b :: rest) =
      (if (insert_batch (oracle b) retryLimit).1 then
        ((loadBatches oracle retryLimit rest).1 + b.length,
         (loadBatches oracle retryLimit rest).2)
      else
        ((loadBatches oracle retryLimit rest).1,
         (loadBatches oracle retryLimit rest).2 + b.length)) := by
  show loadBatchesGo oracle retryLimit 0 0 (b :: rest) = _
  simp only [loadBatchesGo]
  cases h : (insert_batch (oracle b) retryLimit).1 with
  | true =>
      simp only [if_true]
      rw [loadBatchesGo_acc]
      simp; omega
  | false =>
      simp only [Bool.false_eq_true, if_false]
      rw [loadBatchesGo_acc]
      simp; omega

theorem loadBatches_fail_mid {α : Type} (oracle : List α → Nat → Bool)
    (retryLimit : Nat) (b : List α) (post : List (List α))
    (hfail : ∀ k, oracle b k = false) :
    ∀ pre : List (List α),
      loadBatches oracle retryLimit (pre ++ b :: post) =
        ((loadBatches oracle retryLimit (pre ++ post)).1,
         (loadBatches oracle retryLimit (pre ++ post)).2 + b.length) := by
  intro pre
  induction pre with
  | nil =>
      rw [List.nil_append, List.nil_append, loadBatches_cons,
        insert_batch_all_fail (oracle b) retryLimit hfail]
      simp
  | cons p rest ih =>
      rw [List.cons_append, List.cons_append, loadBatches_cons,
        loadBatches_cons, ih]
      cases h : (insert_batch (oracle p) retryLimit).1 <;> simp [h]; omega

theorem loadDataGo_fail_mid {α : Type} (oracle : List α → Nat → Bool)
    (b : List α) (post : List (List α))
    (hfail : ∀ k, oracle b k = false) :
    ∀ (pre : List (List α)) (t : List α) (sc : Nat),
      loadDataGo oracle t sc (pre ++ b :: post) =
        loadDataGo oracle t sc (pre ++ post) := by
  intro pre
  induction pre with
  | nil =>
      intro t sc
      simp only [List.nil_append, loadDataGo,
        attemptLoop_all_fail (oracle b) hfail 3 0, Bool.false_eq_true, if_false]
  | cons p rest ih =>
      intro t sc
      simp only [List.cons_append, loadDataGo]
      cases h : (attemptLoop (oracle p) 0 3).1 with
      | true =>
          simp only [if_true]
          exact ih _ _
      | false =>
          simp only [Bool.false_eq_true, if_false]
          exact ih _ _

/-- Claim C1: a batch whose insert always fails is attempted exactly
max_attempts times (RETRY_LIMIT + 1 = 3 insert calls in
ETL_URBAN/scripts/load.py, 3 in ETL_PIPELINE/scripts/load.py), is then
recorded as failed with zero successes credited (its length goes
entirely to fail_count in the URBAN loop and nothing is added to the
table or success count in the PIPELINE loop), and the remaining batches
are processed exactly as they would be without it. -/
theorem claim_C1_retry_bound {α : Type} (oracle : List α → Nat → Bool)
    (retryLimit : Nat) (b : List α) (pre post : List (List α))
    (hfail : ∀ k, oracle b k = false) :
    insert_batch (oracle b) retryLimit = (false, retryLimit + 1)
    ∧ attemptLoop (oracle b) 0 3 = (false, 3)
    ∧ loadBatches oracle retryLimit (pre ++ b :: post) =
        ((loadBatches oracle retryLimit (pre ++ post)).1,
         (loadBatches oracle retryLimit (pre ++ post)).2 + b.length)
    ∧ (∀ (t : List α) (sc : Nat),
        loadDataGo oracle t sc (pre ++ b :: post) =
          loadDataGo oracle t sc (pre ++ post)) :=
  ⟨insert_batch_all_fail (oracle b) retryLimit hfail,
   attemptLoop_all_fail (oracle b) hfail 3 0,
   loadBatches_fail_mid oracle retryLimit b post hfail pre,
   fun t sc => loadDataGo_fail_mid oracle b post hfail pre t sc⟩

/-- Concrete instance of claim C1: with RETRY_LIMIT = 2 and a store that
never acknowledges, the insert of batch [1] is attempted exactly 3
times, returns failure, and the surrounding loop credits its length to
the failure count only. -/
theorem claim_C1_retry_bound_witness :
    insert_batch (fun _ => false) 2 = (false, 3)
    ∧ loadBatches (fun (_ : List Nat) (_ : Nat) => false) 2 [[2], [1]] =
        ((loadBatches (fun (_ : List Nat) (_ : Nat) => false) 2 [[2]]).1,
         (loadBatches (fun (_ : List Nat) (_ : Nat) => false) 2 [[2]]).2 + 1) := by
  have h := claim_C1_retry_bound (α := Nat) (fun _ _ => false) 2 [1] [[2]] []
    (fun _ => rfl)
  exact ⟨h.1, h.2.2.1⟩

/-- Claim C3: the static delay classifier maps 0 to On-Time, 60 to
Slight Delay, 60.01 to Major Delay and 500 to Critical Delay (the
catch-all beyond the last bound), and each value exactly on a cut point
(0, 60, 180) lands in the lower-severity, inclusive-upper bucket. -/
theorem claim_C3_classifier_boundaries :
    classify_delay 0 = "On-Time"
    ∧ classify_delay 60 = "Slight Delay"
    ∧ classify_delay (60.01 : ℚ) = "Major Delay"
    ∧ classify_delay 500 = "Critical Delay"
    ∧ classify_delay 180 = "Major Delay" := by
  refine ⟨?_, ?_, ?_, ?_, ?_⟩ <;> · unfold classify_delay; norm_num

theorem loadDataGo_acc {α : Type} (oracle : List α → Nat → Bool) :
    ∀ (bs : List (List α)) (t : List α) (sc : Nat),
      loadDataGo oracle t sc bs =
        (t ++ (loadDataGo oracle [] 0 bs).1, sc + (loadDataGo oracle [] 0 bs).2) := by
  intro bs
  induction bs with
  | nil => intro t sc; simp [loadDataGo]
  | cons b rest ih =>
      intro t sc
      simp only [loadDataGo]
      cases h : (attemptLoop (oracle b) 0 3).1 with
      | true =>
          simp only [if_true]
          rw [ih (t ++ b) (sc + b.length), ih ([] ++ b) (0 + b.length)]
          simp
          omega
      | false =>
          simp only [Bool.false_eq_true, if_false]
          exact ih t sc

theorem loadDataGo_mem {α : Type} (oracle : List α → Nat → Bool) :
    ∀ (bs : List (List α)) (t : List α) (sc : Nat) (r : α),
      r ∈ (loadDataGo oracle t sc bs).1 → r ∈ t ∨ ∃ b ∈ bs, r ∈ b := by
  intro bs
  induction bs with
  | nil =>
      intro t sc r hr
      exact Or.inl hr
  | cons b rest ih =>
      intro t sc r hr
      simp only [loadDataGo] at hr
      cases h : (attemptLoop (oracle b) 0 3).1 with
      | true =>
          rw [h] at hr
          simp only [if_true] at hr
          rcases ih (t ++ b) (sc + b.length) r hr with hm | ⟨c, hc, hrc⟩
          · rcases List.mem_append.mp hm with hm | hm
            · exact Or.inl hm
            · exact Or.inr ⟨b, List.mem_cons_self b rest, hm⟩
          · exact Or.inr ⟨c, List.mem_cons_of_mem b hc, hrc⟩
      | false =>
          rw [h] at hr
          simp only [Bool.false_eq_true, if_false] at hr
          rcases ih t sc r hr with hm | ⟨c, hc, hrc⟩
          · exact Or.inl hm
          · exact Or.inr ⟨c, List.mem_cons_of_mem b hc, hrc⟩

theorem chunk_data_mem {α : Type} (l : List α) (size : Nat) (hs : 0 < size)
    (b : List α) (hb : b ∈ chunk_data l size) (r : α) (hr : r ∈ b) : r ∈ l := by
  have hflat : r ∈ (chunk_data l size).flatten := List.mem_flatten.mpr ⟨b, hb, hr⟩
  have heq : (chunk_data l size).flatten = l :=
    chunksAux_flatten size hs l.length l le_rfl
  rwa [heq] at hflat

theorem clearTable_idem (t : List TelcoRow) :
    clearTable (clearTable t) = clearTable t := by
  unfold clearTable
  rw [List.filter_filter]
  simp

theorem clearTable_append (t u : List TelcoRow) :
    clearTable (t ++ u) = clearTable t ++ clearTable u := by
  unfold clearTable
  exact List.filter_append ..

/-- Claim C4: running load_data twice with the same oracle against the
same staged records yields the same target table (hence the same row
count) after each run: the delete issued before any insert removes every
row the first run inserted, because no staged record carries the sentinel
contract_type_code -1 that the delete filter spares (the transform only
emits codes 0, 1 and 2). -/
theorem claim_C4_idempotent_load (oracle : List TelcoRow → Nat → Bool)
    (records : List TelcoRow) (t : List TelcoRow)
    (hcode : ∀ r ∈ records, r.code ≠ -1) :
    (load_data oracle records (load_data oracle records t).1).1 =
      (load_data oracle records t).1
    ∧ (load_data oracle records (load_data oracle records t).1).1.length =
      (load_data oracle records t).1.length := by
  have hX : clearTable (loadDataGo oracle [] 0 (chunk_data records 200)).1 = [] := by
    unfold clearTable
    rw [List.filter_eq_nil_iff]
    intro a ha
    have hmem : a ∈ records := by
      rcases loadDataGo_mem oracle (chunk_data records 200) [] 0 a ha with hm | ⟨b, hb, hab⟩
      · exact absurd hm (List.not_mem_nil a)
      · exact chunk_data_mem records 200 (by decide) b hb a hab
    simpa using hcode a hmem
  have hmain :
      (load_data oracle records (load_data oracle records t).1).1 =
        (load_data oracle records t).1 := by
    unfold load_data
    rw [loadDataGo_acc oracle (chunk_data records 200) (clearTable t) 0]
    dsimp only
    rw [loadDataGo_acc oracle (chunk_data records 200)
      (clearTable (clearTable t ++ (loadDataGo oracle [] 0 (chunk_data records 200)).1)) 0]
    dsimp only
    rw [clearTable_append, clearTable_idem, hX, List.append_nil]
  exact ⟨hmain, by rw [hmain]⟩

/-- Concrete instance of claim C4: one staged record with code 0 loaded
twice over a table holding a code -1 row and a code 5 row gives the same
row count after each run. -/
theorem claim_C4_idempotent_load_witness :
    (load_data (fun _ _ => true) [⟨0⟩]
        (load_data (fun _ _ => true) [⟨0⟩] [⟨-1⟩, ⟨5⟩]).1).1.length =
      (load_data (fun _ _ => true) [⟨0⟩] [⟨-1⟩, ⟨5⟩]).1.length :=
  (claim_C4_idempotent_load (fun _ _ => true) [⟨0⟩] [⟨-1⟩, ⟨5⟩]
    (by decide)).2

/-- Claim C5 fails on the code: a null severity_score makes compute_risk
return "Low Risk" (not null), and a null traffic_impact_score makes
risk_level return "Low Risk" (not null) — the NaN comparisons are all
False and the functions fall through to the default branch. -/
theorem claim_C5_null_category_counterexample :
    compute_risk none ≠ none ∧ risk_level none ≠ none := by
  exact ⟨by decide, by decide⟩

/-- Claim C5 amended: a null metric never raises; compute_aqi maps a
null pm2_5 to a null category, but compute_risk and risk_level map a
null metric to the non-null category "Low Risk". -/
theorem claim_C5_null_category_amended :
    compute_aqi none = none
    ∧ compute_risk none = some "Low Risk"
    ∧ risk_level none = some "Low Risk" :=
  ⟨rfl, rfl, rfl⟩

theorem cleanDeliveries_mem (l : List RawDelivery) (r : RawDelivery) :
    r ∈ cleanDeliveries l ↔ r ∈ l ∧ deliveryValid r = true := by
  unfold cleanDeliveries deliveryValid
  simp only [List.mem_filter, Bool.and_eq_true]
  tauto

theorem deliveryValid_delay (r : RawDelivery) (h : deliveryValid r = true) :
    ∃ d, delayMinutes r = some d ∧ 0 ≤ d := by
  unfold deliveryValid at h
  simp only [Bool.and_eq_true] at h
  obtain ⟨⟨⟨_, he⟩, ha⟩, hge⟩ := h
  rcases hae : r.actual_delivery_time with _ | a
  · rw [hae] at ha
    simp at ha
  · rcases hee : r.expected_delivery_time with _ | e
    · rw [hee] at he
      simp at he
    · have hle : e ≤ a := by
        unfold geOpt at hge
        rw [hae, hee] at hge
        simpa using hge
      refine ⟨(a - e) / 60, ?_, ?_⟩
      · unfold delayMinutes
        rw [hae, hee]
      · exact div_nonneg (sub_nonneg.mpr hle) (by norm_num)

/-- Claim C7: every record surviving the cleaning is an unmodified input
row with all three timestamps non-null and actual at or after expected,
so its delay_minutes is defined and non-negative; and every input row
violating the precondition is excluded from the output. -/
theorem claim_C7_cleaning_invariant (l : List RawDelivery) (r : RawDelivery) :
    (r ∈ cleanDeliveries l →
      r ∈ l
      ∧ r.dispatch_time.isSome = true
      ∧ r.expected_delivery_time.isSome = true
      ∧ r.actual_delivery_time.isSome = true
      ∧ geOpt r.actual_delivery_time r.expected_delivery_time = true
      ∧ ∃ d, delayMinutes r = some d ∧ 0 ≤ d)
    ∧ (r ∈ l → deliveryValid r = false → r ∉ cleanDeliveries l) := by
  constructor
  · intro h
    have hm := (cleanDeliveries_mem l r).mp h
    have hv := hm.2
    have hdelay := deliveryValid_delay r hv
    unfold deliveryValid at hv
    simp only [Bool.and_eq_true] at hv
    exact ⟨hm.1, hv.1.1.1, hv.1.1.2, hv.1.2, hv.2, hdelay⟩
  · intro _ hbad h
    have hv := ((cleanDeliveries_mem l r).mp h).2
    rw [hbad] at hv
    exact Bool.false_ne_true hv

/-- Concrete instance of claim C7: the row with actual 25 >= expected 10
survives with delay (25 - 10) / 60 = 1/4 minute, the row with actual 20
< expected 30 is dropped. -/
theorem claim_C7_cleaning_invariant_witness :
    (⟨some 0, some 10, some 25⟩ : RawDelivery) ∈
        cleanDeliveries [⟨some 0, some 10, some 25⟩, ⟨some 0, some 30, some 20⟩]
    ∧ (⟨some 0, some 30, some 20⟩ : RawDelivery) ∉
        cleanDeliveries [⟨some 0, some 10, some 25⟩, ⟨some 0, some 30, some 20⟩]
    ∧ delayMinutes ⟨some 0, some 10, some 25⟩ = some (1 / 4) := by
  refine ⟨by decide, ?_, by simp only [delayMinutes]; norm_num⟩
  exact (claim_C7_cleaning_invariant
    [⟨some 0, some 10, some 25⟩, ⟨some 0, some 30, some 20⟩]
    ⟨some 0, some 30, some 20⟩).2 (by decide) (by decide)

/-- Claim C6 fails on the code: a delivery whose route ("C", "D") has no
row in the traffic side table gets null (NaN) congestion_score and
avg_route_speed after the left merge — not the declared defaults 5 and
40, which are only installed when the whole column is missing — and its
traffic_impact_score is null, not a value computed from defaults. -/
theorem claim_C6_join_defaults_counterexample :
    mergedCongestion [⟨"A", "B", 5, 40⟩] "C" "D" = none
    ∧ mergedSpeed [⟨"A", "B", 5, 40⟩] "C" "D" = none
    ∧ traffic_impact_score (mergedCongestion [⟨"A", "B", 5, 40⟩] "C" "D")
        (mergedSpeed [⟨"A", "B", 5, 40⟩] "C" "D") = none := by
  refine ⟨?_, ?_, ?_⟩ <;> rfl

/-- Claim C6 amended: rows missing a side-table match keep null joined
columns (the defaults of 5 and 40 apply only when the traffic table
lacks the column entirely), their traffic_impact_score is null and the
downstream risk_level silently classifies that null as "Low Risk"; the
delivery_efficiency_index denominator delay_minutes + 1 is positive on
every cleaned row, while the traffic score's avg_route_speed denominator
has no such guard. -/
theorem claim_C6_join_null_amended (T : List TrafficRow) (src dst : String)
    (hmiss : lookupTraffic T src dst = none)
    (l : List RawDelivery) (r : RawDelivery) (hr : r ∈ cleanDeliveries l)
    (d : ℚ) (hd : delayMinutes r = some d) :
    mergedCongestion T src dst = none
    ∧ mergedSpeed T src dst = none
    ∧ traffic_impact_score (mergedCongestion T src dst) (mergedSpeed T src dst) = none
    ∧ risk_level (traffic_impact_score (mergedCongestion T src dst)
        (mergedSpeed T src dst)) = some "Low Risk"
    ∧ 0 < d + 1 := by
  have h1 : mergedCongestion T src dst = none := by
    unfold mergedCongestion
    rw [hmiss]
    rfl
  have h2 : mergedSpeed T src dst = none := by
    unfold mergedSpeed
    rw [hmiss]
    rfl
  have h3 : traffic_impact_score (mergedCongestion T src dst)
      (mergedSpeed T src dst) = none := by
    rw [h1, h2]
    rfl
  have hv := ((cleanDeliveries_mem l r).mp hr).2
  obtain ⟨d0, hd0, hnn⟩ := deliveryValid_delay r hv
  rw [hd] at hd0
  have hdd : d = d0 := Option.some.inj hd0
  subst hdd
  refine ⟨h1, h2, h3, ?_, by linarith⟩
  rw [h3]
  rfl

/-- Concrete instance of claim C6 amended: the route ("C", "D") misses
the one-row traffic table, giving null joined columns and a null score
classified "Low Risk", while the surviving delivery's efficiency-index
denominator 1/4 + 1 is positive. -/
theorem claim_C6_join_null_amended_witness :
    mergedCongestion [⟨"A", "B", 5, 40⟩] "C" "D" = none
    ∧ mergedSpeed [⟨"A", "B", 5, 40⟩] "C" "D" = none
    ∧ traffic_impact_score (mergedCongestion [⟨"A", "B", 5, 40⟩] "C" "D")
        (mergedSpeed [⟨"A", "B", 5, 40⟩] "C" "D") = none
    ∧ risk_level (traffic_impact_score (mergedCongestion [⟨"A", "B", 5, 40⟩] "C" "D")
        (mergedSpeed [⟨"A", "B", 5, 40⟩] "C" "D")) = some "Low Risk"
    ∧ 0 < (1 / 4 : ℚ) + 1 :=
  claim_C6_join_null_amended [⟨"A", "B", 5, 40⟩] "C" "D" (by decide)
    [⟨some 0, some 10, some 25⟩] ⟨some 0, some 10, some 25⟩ (by decide)
    (1 / 4) (by simp only [delayMinutes]; norm_num)

theorem sortRat_example : sortRat [10, 20, 30, 40, 50] = [10, 20, 30, 40, 50] := by
  norm_num [sortRat, insertSorted]

theorem quantile33_example :
    quantileLinear (33 / 100) [10, 20, 30, 40, 50] = some (116 / 5) := by
  simp only [quantileLinear, sortRat_example]
  norm_num [List.getD, Int.toNat_ofNat]

theorem quantile66_example :
    quantileLinear (66 / 100) [10, 20, 30, 40, 50] = some (182 / 5) := by
  simp only [quantileLinear, sortRat_example]
  norm_num [List.getD, show Int.toNat 2 = 2 from rfl]

theorem lowThresh_example :
    lowThresh [some 10, some 20, some 30, some 40, some 50] = some (116 / 5) := by
  unfold lowThresh
  have hfm : List.filterMap id
      [some (10 : ℚ), some 20, some 30, some 40, some 50] = [10, 20, 30, 40, 50] := by
    simp
  rw [hfm, quantile33_example]

theorem medThresh_example :
    medThresh [some 10, some 20, some 30, some 40, some 50] = some (182 / 5) := by
  unfold medThresh
  have hfm : List.filterMap id
      [some (10 : ℚ), some 20, some 30, some 40, some 50] = [10, 20, 30, 40, 50] := by
    simp
  rw [hfm, quantile66_example]

/-- Claim C8: the dynamic risk classifier computes the 0.33 and 0.66
quantile cut points from the non-null severity scores of the same run
before classifying; on [10,20,30,40,50] the cut points are 23.2 and 36.4
and the values partition into Low/Low/Moderate/High/High, a null score
classifies to null, and any value at or below a cut point goes to the
lower-severity bucket. -/
theorem claim_C8_dynamic_percentiles :
    lowThresh [some 10, some 20, some 30, some 40, some 50] = some (116 / 5)
    ∧ medThresh [some 10, some 20, some 30, some 40, some 50] = some (182 / 5)
    ∧ riskFlags [some 10, some 20, some 30, some 40, some 50] =
        [some "Low Risk", some "Low Risk", some "Moderate Risk",
         some "High Risk", some "High Risk"]
    ∧ lowThresh [some 10, none, some 20, some 30, some 40, some 50] = some (116 / 5)
    ∧ (∀ low med : Option ℚ, dynamic_risk low med none = none)
    ∧ (∀ low med x : ℚ, x ≤ low →
        dynamic_risk (some low) (some med) (some x) = some "Low Risk")
    ∧ (∀ low med x : ℚ, ¬x ≤ low → x ≤ med →
        dynamic_risk (some low) (some med) (some x) = some "Moderate Risk")
    ∧ (∀ low med x : ℚ, ¬x ≤ low → ¬x ≤ med →
        dynamic_risk (some low) (some med) (some x) = some "High Risk") := by
  refine ⟨lowThresh_example, medThresh_example, ?_, ?_, ?_, ?_, ?_, ?_⟩
  · simp only [riskFlags, lowThresh_example, medThresh_example, List.map]
    norm_num [dynamic_risk, leOpt]
  · unfold lowThresh
    have hfm : List.filterMap id
        [some (10 : ℚ), none, some 20, some 30, some 40, some 50] =
        [10, 20, 30, 40, 50] := by
      simp
    rw [hfm, quantile33_example]
  · intro low med
    rfl
  · intro low med x h
    simp [dynamic_risk, leOpt, h]
  · intro low med x h1 h2
    simp [dynamic_risk, leOpt, h1, h2]
  · intro low med x h1 h2
    simp [dynamic_risk, leOpt, h1, h2]

/-- Concrete instance of claim C8's boundary rule: the value 9 exactly
at the 0.66-quantile cut point 9 classifies into the lower (Moderate)
bucket, and 5 at the low cut point 5 into Low. -/
theorem claim_C8_dynamic_percentiles_witness :
    dynamic_risk (some 5) (some 9) (some 5) = some "Low Risk"
    ∧ dynamic_risk (some 5) (some 9) (some 9) = some "Moderate Risk" :=
  ⟨claim_C8_dynamic_percentiles.2.2.2.2.2.1 5 9 5 le_rfl,
   claim_C8_dynamic_percentiles.2.2.2.2.2.2.1 5 9 9 (by norm_num) (by norm_num)⟩

theorem columnMax_eq_none (l : List ℚ) : columnMax l = none ↔ l = [] := by
  cases l with
  | nil => simp [columnMax]
  | cons x xs =>
      simp only [columnMax]
      cases columnMax xs <;> simp

theorem columnMax_spec :
    ∀ (l : List ℚ) (m : ℚ), columnMax l = some m → m ∈ l ∧ ∀ w ∈ l, w ≤ m := by
  intro l
  induction l with
  | nil => intro m h; cases h
  | cons x xs ih =>
      intro m h
      simp only [columnMax] at h
      rcases hxs : columnMax xs with _ | m0
      · rw [hxs] at h
        have hm : m = x := by
          simpa using h.symm
        subst hm
        have hnil : xs = [] := (columnMax_eq_none xs).mp hxs
        subst hnil
        exact ⟨List.mem_singleton_self m, by simp⟩
      · rw [hxs] at h
        have hm : m = max x m0 := by
          simpa using h.symm
        obtain ⟨hmem0, hub0⟩ := ih m0 hxs
        subst hm
        constructor
        · rcases max_choice x m0 with hc | hc
          · rw [hc]; exact List.mem_cons_self x xs
          · rw [hc]; exact List.mem_cons_of_mem x hmem0
        · intro w hw
          rcases List.mem_cons.mp hw with hw | hw
          · rw [hw]; exact le_max_left x m0
          · exact le_trans (hub0 w hw) (le_max_right x m0)

/-- Claim C9: the grams-to-kilograms normalization fires exactly when
the package_weight column maximum exceeds 1000 — some weight above 1000
makes it rescale every row by 1/1000, and when every weight is at most
1000 the column is returned unchanged. -/
theorem claim_C9_weight_normalization :
    (∀ ws : List ℚ, (∃ w ∈ ws, 1000 < w) →
      normalizeWeights ws = ws.map (fun w => w / 1000))
    ∧ (∀ ws : List ℚ, (∀ w ∈ ws, w ≤ 1000) → normalizeWeights ws = ws) := by
  constructor
  · rintro ws ⟨w, hw, hgt⟩
    unfold normalizeWeights
    rcases h : columnMax ws with _ | m
    · have hnil : ws = [] := (columnMax_eq_none ws).mp h
      subst hnil
      cases hw
    · obtain ⟨_, hub⟩ := columnMax_spec ws m h
      have hm : 1000 < m := lt_of_lt_of_le hgt (hub w hw)
      simp [hm]
  · intro ws hle
    unfold normalizeWeights
    rcases h : columnMax ws with _ | m
    · rfl
    · obtain ⟨hmem, _⟩ := columnMax_spec ws m h
      have hm : ¬1000 < m := not_lt.mpr (hle m hmem)
      simp [hm]

/-- Concrete instance of claim C9: the column [500, 1500] has maximum
above 1000 and is rescaled, the column [2, 3] is left alone. -/
theorem claim_C9_weight_normalization_witness :
    normalizeWeights [500, 1500] = [500, 1500].map (fun w => w / 1000)
    ∧ normalizeWeights [2, 3] = [2, 3] :=
  ⟨claim_C9_weight_normalization.1 [500, 1500]
      ⟨1500, by norm_num, by norm_num⟩,
   claim_C9_weight_normalization.2 [2, 3] (by
      intro w hw
      rcases List.mem_cons.mp hw with h | h
      · rw [h]; norm_num
      · simp only [List.mem_singleton] at h
        rw [h]; norm_num)⟩

theorem contract_type_code_cases (c : Option String) :
    contract_type_code c = 0 ∨ contract_type_code c = 1 ∨ contract_type_code c = 2 := by
  cases c with
  | none => exact Or.inl rfl
  | some s =>
      simp only [contract_type_code, contract_map]
      split_ifs <;> simp

/-- Claim C10: every derived contract_type_code is 0, 1 or 2 — unmapped
and missing contract values are coerced to 0 — so the Validator's
domain check set(codes) - {0,1,2} = empty always passes on the output of
this transform. -/
theorem claim_C10_contract_codes (cs : List (Option String)) :
    validContractCodes (transformContractColumn cs) = true
    ∧ ∀ c : Option String,
        contract_type_code c = 0 ∨ contract_type_code c = 1 ∨ contract_type_code c = 2 := by
  refine ⟨?_, contract_type_code_cases⟩
  unfold validContractCodes transformContractColumn
  rw [List.all_eq_true]
  intro x hx
  rw [List.mem_map] at hx
  obtain ⟨c, _, hc⟩ := hx
  rcases contract_type_code_cases (c.map (fun s => s.toLower)) with h | h | h <;>
    · rw [← hc, h]; decide

end ETL
